import Mathlib

/-!
The damage table of Klee's elemental skill (`keli_e.js`).

A shallow embedding of `src/assets/calculators/data/fire/keli/keli_e.js`.

The module consists of one top-level binding, `skillKeys`, and one exported
function.  The exported function calls four functions that live in other
modules (`getAttribute`, `tableNormalA`, `tableReactionA`, `mergeArray`); they
are parameters of the embedding (`Collab`), valued in an arbitrary monad `m`, so
that the same definition can be run with pure collaborators (`m = Id`), with
failing ones (`m = Except E`), with stateful ones (`m = StateM S`) and with
collaborators that record their invocations.

The top-level binding is declared with `let`, hence assignable by the code of
the module: it is kept in an explicit module state (`ModuleEnv`) which the
exported function reads each time the identifier `skillKeys` is evaluated.

A second embedding, `ByRef.keli_e`, takes the parameters and the binding by
reference: the three inputs and the array behind `skillKeys` are cells of a
store (`Heap`) which the function and the collaborators both read and can both
write, and which outlives a failure.  It is the one to use for what a call does
to its inputs and to the array; `heapRun_onHeap` states that the two embeddings
agree when the collaborators leave the store alone.
-/

namespace KeliE

/-! ## Data model -/

/-- One entry of `skillKeys`: an object literal with the four string
properties `key`, `chs`, `skill` and `element`. -/
structure SkillKey where
  key : String
  chs : String
  skill : String
  element : String
deriving DecidableEq

/-- The property list of an entry: property names with their values, in the
order of the object literal. -/
def SkillKey.properties (item : SkillKey) : List (String × String) :=
  [("key", item.key), ("chs", item.chs), ("skill", item.skill), ("element", item.element)]

/-- The initialiser of the top-level binding `let skillKeys = [...]`. -/
def skillKeys : List SkillKey :=
  [ { key := "dmg1", chs := "蹦蹦炸弹伤害", skill := "e", element := "fire" },
    { key := "dmg2", chs := "诡雷伤害", skill := "e", element := "fire" } ]

/-- The top-level bindings of the module.  `skillKeys` is the only one. -/
structure ModuleEnv where
  skillKeys : List SkillKey
deriving DecidableEq

/-- The module state right after the module has been loaded. -/
def ModuleEnv.load : ModuleEnv := { skillKeys := KeliE.skillKeys }

/-- The second argument of the exported function.  The function reads the
properties `character`, `weapon` and `buffs`; whatever else the object holds is
`rest`.  The object is handed as a whole to the table functions. -/
structure ConfigObject (C W B X : Type) where
  character : C
  weapon : W
  buffs : B
  rest : X
deriving DecidableEq

/-- The second component of an argument `[name, column]` of `mergeArray`: either
the array of display labels built by `skillKeys.map(item => item.chs)`, or the
value returned by one of the table functions. -/
inductive Column (R : Type) where
  | labels (chs : List String)
  | table (result : R)
deriving DecidableEq

/-- The functions imported from other modules, valued in the monad `m`. -/
structure Collab (m : Type → Type) (A C W B X En Attr R T : Type) where
  getAttribute : A → C → W → B → m Attr
  tableNormalA : Attr → ConfigObject C W B X → En → List SkillKey → String → m R
  tableReactionA : String → Attr → ConfigObject C W B X → En → List SkillKey → String → m R
  mergeArray : List (String × Column R) → m T

variable {m : Type → Type} {A C W B X En Attr R T E S V G α β : Type}

/-! ## The exported function -/

/-- The default export of `keli_e.js`.  Statements are in the order of the
source (its local `attribute` is `attr` here), the arguments of `mergeArray` are
evaluated from left to right, and each occurrence of the identifier `skillKeys`
is a read of the module binding. -/
def keli_e [Monad m] (K : Collab m A C W B X En Attr R T)
    (artifacts : A) (configObject : ConfigObject C W B X) (enemy : En) :
    StateT ModuleEnv m T := do
  let c := configObject.character
  let w := configObject.weapon
  let attr ← K.getAttribute artifacts c w configObject.buffs
  let chs := (← get).skillKeys.map (fun item => item.chs)
  let normal ← K.tableNormalA attr configObject enemy (← get).skillKeys "e"
  let normalMelt ←
    K.tableReactionA "melt" attr configObject enemy (← get).skillKeys "e"
  let normalVaporize ←
    K.tableReactionA "vaporize" attr configObject enemy (← get).skillKeys "e"
  let ret ← K.mergeArray
    [ ("chs", Column.labels chs),
      ("normal", Column.table normal),
      ("normalMelt", Column.table normalMelt),
      ("normalVaporize", Column.table normalVaporize) ]
  return ret

/-! ## Collaborators as plain functions -/

/-- Collaborators that are functions of their arguments and nothing else. -/
structure PureCollab (A C W B X En Attr R T : Type) where
  getAttribute : A → C → W → B → Attr
  tableNormalA : Attr → ConfigObject C W B X → En → List SkillKey → String → R
  tableReactionA : String → Attr → ConfigObject C W B X → En → List SkillKey → String → R
  mergeArray : List (String × Column R) → T

/-- Plain functions seen as collaborators of any monad. -/
def PureCollab.toCollab [Monad m] (P : PureCollab A C W B X En Attr R T) :
    Collab m A C W B X En Attr R T where
  getAttribute a c w b := pure (P.getAttribute a c w b)
  tableNormalA attr cfg enemy keys slot := pure (P.tableNormalA attr cfg enemy keys slot)
  tableReactionA reaction attr cfg enemy keys slot :=
    pure (P.tableReactionA reaction attr cfg enemy keys slot)
  mergeArray cols := pure (P.mergeArray cols)

/-- The table that one call on a freshly loaded module returns when the
collaborators are plain functions. -/
def output (P : PureCollab A C W B X En Attr R T)
    (artifacts : A) (configObject : ConfigObject C W B X) (enemy : En) : T :=
  Id.run ((keli_e (m := Id) P.toCollab artifacts configObject enemy).run' ModuleEnv.load)

/-- The attribute value of a call: `getAttribute(artifacts, c, w, configObject.buffs)`. -/
def resolved (P : PureCollab A C W B X En Attr R T)
    (artifacts : A) (configObject : ConfigObject C W B X) : Attr :=
  P.getAttribute artifacts configObject.character configObject.weapon configObject.buffs

/-- The `normal` column of a call on a freshly loaded module:
`tableNormalA(attribute, configObject, enemy, skillKeys, "e")`. -/
def normalTable (P : PureCollab A C W B X En Attr R T)
    (artifacts : A) (configObject : ConfigObject C W B X) (enemy : En) : R :=
  P.tableNormalA (resolved P artifacts configObject) configObject enemy skillKeys "e"

/-- A reactive column of a call on a freshly loaded module:
`tableReactionA(reaction, attribute, configObject, enemy, skillKeys, "e")`. -/
def reactionTable (P : PureCollab A C W B X En Attr R T) (reaction : String)
    (artifacts : A) (configObject : ConfigObject C W B X) (enemy : En) : R :=
  P.tableReactionA reaction (resolved P artifacts configObject) configObject enemy skillKeys "e"

/-! ## Collaborators that record their invocations -/

/-- One invocation of a collaborator, with the arguments it received. -/
inductive Call (A C W B X En Attr R : Type) where
  | getAttribute (artifacts : A) (character : C) (weapon : W) (buffs : B)
  | tableNormalA (attr : Attr) (configObject : ConfigObject C W B X) (enemy : En)
      (keys : List SkillKey) (slot : String)
  | tableReactionA (reaction : String) (attr : Attr) (configObject : ConfigObject C W B X)
      (enemy : En) (keys : List SkillKey) (slot : String)
  | mergeArray (cols : List (String × Column R))
deriving DecidableEq

/-- The skill list an invocation received, for the table functions. -/
def Call.keys : Call A C W B X En Attr R → Option (List SkillKey)
  | .tableNormalA _ _ _ keys _ => some keys
  | .tableReactionA _ _ _ _ keys _ => some keys
  | _ => none

/-- The slot tag an invocation received, for the table functions. -/
def Call.slot : Call A C W B X En Attr R → Option String
  | .tableNormalA _ _ _ _ slot => some slot
  | .tableReactionA _ _ _ _ _ slot => some slot
  | _ => none

/-- The named columns an invocation received, for `mergeArray`. -/
def Call.columns : Call A C W B X En Attr R → Option (List (String × Column R))
  | .mergeArray cols => some cols
  | _ => none

/-- The column names an invocation received, for `mergeArray`. -/
def Call.columnNames : Call A C W B X En Attr R → Option (List String)
  | .mergeArray cols => some (cols.map Prod.fst)
  | _ => none

/-- A computation that may fail with an error of `E` and that appends to a log
of invocations; the log survives a failure. -/
abbrev Traced (E A C W B X En Attr R : Type) : Type → Type :=
  ExceptT E (StateM (List (Call A C W B X En Attr R)))

/-- Append one invocation to the log, then give the collaborator's result. -/
def record (call : Call A C W B X En Attr R) (result : Except E α) :
    Traced E A C W B X En Attr R α :=
  ExceptT.mk (fun log => (result, log ++ [call]))

/-- Failing collaborators, each made to log its invocation before it answers. -/
def Collab.traced (K : Collab (Except E) A C W B X En Attr R T) :
    Collab (Traced E A C W B X En Attr R) A C W B X En Attr R T where
  getAttribute a c w b := record (.getAttribute a c w b) (K.getAttribute a c w b)
  tableNormalA attr cfg enemy keys slot :=
    record (.tableNormalA attr cfg enemy keys slot) (K.tableNormalA attr cfg enemy keys slot)
  tableReactionA reaction attr cfg enemy keys slot :=
    record (.tableReactionA reaction attr cfg enemy keys slot)
      (K.tableReactionA reaction attr cfg enemy keys slot)
  mergeArray cols := record (.mergeArray cols) (K.mergeArray cols)

/-- One call of the exported function with logging collaborators, started in
module state `env` with an empty log: the outcome (the returned table and the
module state after the call, or the error) and the invocations made, in order. -/
def tracedRun (K : Collab (Except E) A C W B X En Attr R T)
    (artifacts : A) (configObject : ConfigObject C W B X) (enemy : En) (env : ModuleEnv) :
    Except E (T × ModuleEnv) × List (Call A C W B X En Attr R) :=
  (((keli_e K.traced artifacts configObject enemy).run env).run).run []

/-- The error, if any, with which collaborator `K` answers the invocation. -/
def Collab.errorOf (K : Collab (Except E) A C W B X En Attr R T) :
    Call A C W B X En Attr R → Option E
  | .getAttribute a c w b =>
    match K.getAttribute a c w b with
    | .error err => some err
    | .ok _ => none
  | .tableNormalA attr cfg enemy keys slot =>
    match K.tableNormalA attr cfg enemy keys slot with
    | .error err => some err
    | .ok _ => none
  | .tableReactionA reaction attr cfg enemy keys slot =>
    match K.tableReactionA reaction attr cfg enemy keys slot with
    | .error err => some err
    | .ok _ => none
  | .mergeArray cols =>
    match K.mergeArray cols with
    | .error err => some err
    | .ok _ => none

/-! ## Stateful collaborators -/

/-- Collaborators over a store `S` whose answers are those of the plain
functions `P` whatever the store holds (they may still write to the store). -/
structure Collab.Deterministic (K : Collab (StateM S) A C W B X En Attr R T)
    (P : PureCollab A C W B X En Attr R T) : Prop where
  getAttribute : ∀ a c w b s, (K.getAttribute a c w b s).1 = P.getAttribute a c w b
  tableNormalA : ∀ attr cfg enemy keys slot s,
    (K.tableNormalA attr cfg enemy keys slot s).1 = P.tableNormalA attr cfg enemy keys slot
  tableReactionA : ∀ reaction attr cfg enemy keys slot s,
    (K.tableReactionA reaction attr cfg enemy keys slot s).1 =
      P.tableReactionA reaction attr cfg enemy keys slot
  mergeArray : ∀ cols s, (K.mergeArray cols s).1 = P.mergeArray cols

/-- One call of the exported function with stateful collaborators, started in
module state `env` and store `s`: the returned table, the module state after the
call, and the store after the call. -/
def storeRun (K : Collab (StateM S) A C W B X En Attr R T)
    (artifacts : A) (configObject : ConfigObject C W B X) (enemy : En)
    (env : ModuleEnv) (s : S) : (T × ModuleEnv) × S :=
  ((keli_e K artifacts configObject enemy).run env).run s

/-! ## `mergeArray` as a zip -/

/-- A cell of a merged row: a display label or a result of a table function. -/
inductive Cell (V : Type) where
  | label (chs : String)
  | result (value : V)
deriving DecidableEq

/-- The cells of a column whose table results are arrays. -/
def Column.cells : Column (List V) → List (Cell V)
  | .labels chs => chs.map Cell.label
  | .table result => result.map Cell.result

/-- The number of rows of a zip: the length of the shortest column. -/
def rowCount : List (String × List V) → Nat
  | [] => 0
  | [col] => col.2.length
  | col :: cols => min col.2.length (rowCount cols)

/-- Row `i` of a zip: under each column's name, the `i`-th entry of the column. -/
def rowAt (cols : List (String × List V)) (i : Nat) : List (String × V) :=
  cols.filterMap (fun col => col.2[i]?.map (fun v => (col.1, v)))

/-- Modelled from the spec: `mergeArray` of the module `@util/mergeArray`, which
is not among the sources.  The spec says that it "zips named columns into a
unified row-oriented structure", "column-aligned by row index": row `i` of the
result holds, under the name of each column, the `i`-th entry of that column. -/
def mergeArray (cols : List (String × List V)) : List (List (String × V)) :=
  (List.range (rowCount cols)).map (rowAt cols)

/-- The zip, as a collaborator on named columns of labels and table results. -/
def zipColumns (cols : List (String × Column (List V))) : List (List (String × Cell V)) :=
  mergeArray (cols.map (fun col => (col.1, col.2.cells)))

/-! ## A mis-wired variant -/

/-- The exported function with one change: the reaction type of the second
reactive column is `"melt"` instead of `"vaporize"`.  This is not code of the
module; it is the mis-wiring that the exported function is compared with. -/
def keli_e_swapped [Monad m] (K : Collab m A C W B X En Attr R T)
    (artifacts : A) (configObject : ConfigObject C W B X) (enemy : En) :
    StateT ModuleEnv m T := do
  let c := configObject.character
  let w := configObject.weapon
  let attr ← K.getAttribute artifacts c w configObject.buffs
  let chs := (← get).skillKeys.map (fun item => item.chs)
  let normal ← K.tableNormalA attr configObject enemy (← get).skillKeys "e"
  let normalMelt ←
    K.tableReactionA "melt" attr configObject enemy (← get).skillKeys "e"
  let normalVaporize ←
    K.tableReactionA "melt" attr configObject enemy (← get).skillKeys "e"
  let ret ← K.mergeArray
    [ ("chs", Column.labels chs),
      ("normal", Column.table normal),
      ("normalMelt", Column.table normalMelt),
      ("normalVaporize", Column.table normalVaporize) ]
  return ret

/-- The table the mis-wired variant returns on a freshly loaded module. -/
def outputSwapped (P : PureCollab A C W B X En Attr R T)
    (artifacts : A) (configObject : ConfigObject C W B X) (enemy : En) : T :=
  Id.run ((keli_e_swapped (m := Id) P.toCollab artifacts configObject enemy).run' ModuleEnv.load)

/-! ## Concrete collaborators for the worked examples -/

/-- The rows of the worked examples: named cells over numbers. -/
abbrev DemoTable : Type := List (List (String × Cell Nat))

/-- Plain collaborators over numbers: the attribute is a sum, a table has one
number per skill entry, melt and vaporize scale differently, `mergeArray` zips. -/
def demo : PureCollab Nat Nat Nat Nat Unit Nat Nat (List Nat) DemoTable where
  getAttribute a c w b := a + c + w + b
  tableNormalA attr _ enemy keys _ := keys.map (fun k => attr + enemy + k.key.length)
  tableReactionA reaction attr _ enemy keys _ :=
    keys.map (fun _ => if reaction = "melt" then 2 * attr + enemy else 3 * attr + enemy)
  mergeArray := zipColumns

/-- The collaborators of `demo`, the `failAt`-th invocation of a call failing
(`0` for `getAttribute`, ..., `4` for `mergeArray`; none fails from `5` on). -/
def demoFailing (failAt : Nat) :
    Collab (Except String) Nat Nat Nat Nat Unit Nat Nat (List Nat) DemoTable where
  getAttribute a c w b :=
    if failAt = 0 then .error "no character" else .ok (demo.getAttribute a c w b)
  tableNormalA attr cfg enemy keys slot :=
    if failAt = 1 then .error "normal" else .ok (demo.tableNormalA attr cfg enemy keys slot)
  tableReactionA reaction attr cfg enemy keys slot :=
    if (failAt = 2 ∧ reaction = "melt") ∨ (failAt = 3 ∧ reaction = "vaporize") then
      .error reaction
    else .ok (demo.tableReactionA reaction attr cfg enemy keys slot)
  mergeArray cols := if failAt = 4 then .error "merge" else .ok (demo.mergeArray cols)

/-- The collaborators of `demo` over a store that counts invocations: they
answer as `demo` does and they write to the store. -/
def demoCounting : Collab (StateM Nat) Nat Nat Nat Nat Unit Nat Nat (List Nat) DemoTable where
  getAttribute a c w b := fun n => (demo.getAttribute a c w b, n + 1)
  tableNormalA attr cfg enemy keys slot :=
    fun n => (demo.tableNormalA attr cfg enemy keys slot, n + 1)
  tableReactionA reaction attr cfg enemy keys slot :=
    fun n => (demo.tableReactionA reaction attr cfg enemy keys slot, n + 1)
  mergeArray cols := fun n => (demo.mergeArray cols, n + 1)

/-- The configuration object of the worked examples. -/
def demoConfig : ConfigObject Nat Nat Nat Unit :=
  { character := 2, weapon := 3, buffs := 4, rest := () }

/-- The collaborators of `demo` with a `mergeArray` that hands its named columns
back as they are. -/
def demoKeeping :
    PureCollab Nat Nat Nat Nat Unit Nat Nat (List Nat) (List (String × Column (List Nat))) where
  getAttribute := demo.getAttribute
  tableNormalA := demo.tableNormalA
  tableReactionA := demo.tableReactionA
  mergeArray cols := cols

/-! ## Inputs and binding by reference -/

/-- The objects that a call can reach, as cells of a store: the array behind
the module binding `skillKeys`, the three objects behind the parameters
`artifacts`, `configObject` and `enemy`, which the caller owns, and whatever
else the collaborators keep (`other`). -/
structure Heap (A C W B X En G : Type) where
  skillKeys : List SkillKey
  artifacts : A
  configObject : ConfigObject C W B X
  enemy : En
  other : G
deriving DecidableEq

/-- The store once the module is loaded and the caller holds its three inputs. -/
def Heap.load (artifacts : A) (configObject : ConfigObject C W B X) (enemy : En) (other : G) :
    Heap A C W B X En G :=
  { skillKeys := KeliE.skillKeys, artifacts := artifacts, configObject := configObject,
    enemy := enemy, other := other }

/-- The same objects with another content of `other`. -/
def Heap.setOther (h : Heap A C W B X En G) (other : α) : Heap A C W B X En α :=
  { skillKeys := h.skillKeys, artifacts := h.artifacts, configObject := h.configObject,
    enemy := h.enemy, other := other }

/-- A computation on a store `H` that may fail with an error of `E`; the store
outlives a failure. -/
abbrev Exec (E H : Type) : Type → Type := ExceptT E (StateM H)

/-- Run a computation from the store `h`: the outcome and the store it leaves. -/
def runOn {H : Type} (x : Exec E H α) (h : H) : Except E α × H :=
  (x.run).run h

namespace ByRef

/-- The default export of `keli_e.js`, with its parameters and the module
binding as references into the store.  Every occurrence of `artifacts`,
`configObject`, `enemy` or `skillKeys` reads the object as it is at that point
of the call; a collaborator is handed what was read and has the whole store at
its disposal, so that it can write to the objects it is handed.  Statements are
in the order of the source (its local `attribute` is `attr` here) and the
arguments of `mergeArray` are evaluated from left to right. -/
def keli_e (K : Collab (Exec E (Heap A C W B X En G)) A C W B X En Attr R T) :
    Exec E (Heap A C W B X En G) T := do
  let c := (← get).configObject.character
  let w := (← get).configObject.weapon
  let attr ← K.getAttribute (← get).artifacts c w (← get).configObject.buffs
  let chs := (← get).skillKeys.map (fun item => item.chs)
  let normal ←
    K.tableNormalA attr (← get).configObject (← get).enemy (← get).skillKeys "e"
  let normalMelt ←
    K.tableReactionA "melt" attr (← get).configObject (← get).enemy (← get).skillKeys "e"
  let normalVaporize ←
    K.tableReactionA "vaporize" attr (← get).configObject (← get).enemy
      (← get).skillKeys "e"
  let ret ← K.mergeArray
    [ ("chs", Column.labels chs),
      ("normal", Column.table normal),
      ("normalMelt", Column.table normalMelt),
      ("normalVaporize", Column.table normalVaporize) ]
  return ret

end ByRef

/-- One call of the exported function on the store `h`: the returned table or
the error, and the store after the call. -/
def heapRun (K : Collab (Exec E (Heap A C W B X En G)) A C W B X En Attr R T)
    (h : Heap A C W B X En G) : Except E T × Heap A C W B X En G :=
  runOn (ByRef.keli_e K) h

/-- Collaborators on the store that leave every object as they found it. -/
structure Collab.WritesNothing
    (K : Collab (Exec E (Heap A C W B X En G)) A C W B X En Attr R T) : Prop where
  getAttribute : ∀ a c w b h, (runOn (K.getAttribute a c w b) h).2 = h
  tableNormalA : ∀ attr cfg enemy keys slot h,
    (runOn (K.tableNormalA attr cfg enemy keys slot) h).2 = h
  tableReactionA : ∀ reaction attr cfg enemy keys slot h,
    (runOn (K.tableReactionA reaction attr cfg enemy keys slot) h).2 = h
  mergeArray : ∀ cols h, (runOn (K.mergeArray cols) h).2 = h

/-- Collaborators on the store that do not write to the array `skillKeys`
(they may write to anything else). -/
structure Collab.KeepsSkillKeys
    (K : Collab (Exec E (Heap A C W B X En G)) A C W B X En Attr R T) : Prop where
  getAttribute : ∀ a c w b h,
    (runOn (K.getAttribute a c w b) h).2.skillKeys = h.skillKeys
  tableNormalA : ∀ attr cfg enemy keys slot h,
    (runOn (K.tableNormalA attr cfg enemy keys slot) h).2.skillKeys = h.skillKeys
  tableReactionA : ∀ reaction attr cfg enemy keys slot h,
    (runOn (K.tableReactionA reaction attr cfg enemy keys slot) h).2.skillKeys = h.skillKeys
  mergeArray : ∀ cols h, (runOn (K.mergeArray cols) h).2.skillKeys = h.skillKeys

/-- An invocation of a collaborator together with the content of the array
`skillKeys` at the moment of the invocation. -/
structure Event (A C W B X En Attr R : Type) where
  call : Call A C W B X En Attr R
  binding : List SkillKey
deriving DecidableEq

/-- The skill list that the table function of an event received. -/
def Event.keys (ev : Event A C W B X En Attr R) : Option (List SkillKey) :=
  ev.call.keys

/-- A collaborator on the store made to log its invocation: the log is kept
next to the collaborators' own `other`, out of their reach. -/
def logged (call : Call A C W B X En Attr R) (action : Exec E (Heap A C W B X En G) α) :
    Exec E (Heap A C W B X En (G × List (Event A C W B X En Attr R))) α :=
  ExceptT.mk (fun h =>
    ((runOn action (h.setOther h.other.1)).1,
      (runOn action (h.setOther h.other.1)).2.setOther
        ((runOn action (h.setOther h.other.1)).2.other,
          h.other.2 ++ [{ call := call, binding := h.skillKeys }])))

/-- Collaborators on the store, each made to log its invocations. -/
def Collab.logged (K : Collab (Exec E (Heap A C W B X En G)) A C W B X En Attr R T) :
    Collab (Exec E (Heap A C W B X En (G × List (Event A C W B X En Attr R))))
      A C W B X En Attr R T where
  getAttribute a c w b := KeliE.logged (.getAttribute a c w b) (K.getAttribute a c w b)
  tableNormalA attr cfg enemy keys slot :=
    KeliE.logged (.tableNormalA attr cfg enemy keys slot)
      (K.tableNormalA attr cfg enemy keys slot)
  tableReactionA reaction attr cfg enemy keys slot :=
    KeliE.logged (.tableReactionA reaction attr cfg enemy keys slot)
      (K.tableReactionA reaction attr cfg enemy keys slot)
  mergeArray cols := KeliE.logged (.mergeArray cols) (K.mergeArray cols)

/-- One call of the exported function on the store `h` with logging
collaborators, the log empty at first: the outcome, and the store after the
call with the log of the call in `other`. -/
def heapTrace (K : Collab (Exec E (Heap A C W B X En G)) A C W B X En Attr R T)
    (h : Heap A C W B X En G) :
    Except E T × Heap A C W B X En (G × List (Event A C W B X En Attr R)) :=
  heapRun K.logged (h.setOther (h.other, []))

/-- The store after `n` calls in a row, each on the store the previous one
left, whether it failed or not. -/
def heapRuns (K : Collab (Exec E (Heap A C W B X En G)) A C W B X En Attr R T) :
    Nat → Heap A C W B X En G → Heap A C W B X En G
  | 0, h => h
  | n + 1, h => heapRuns K n (heapRun K h).2

/-- Failing collaborators that neither read nor write the store, as
collaborators on the store. -/
def Collab.onHeap (K : Collab (Except E) A C W B X En Attr R T) :
    Collab (Exec E (Heap A C W B X En G)) A C W B X En Attr R T where
  getAttribute a c w b := ExceptT.mk (fun h => (K.getAttribute a c w b, h))
  tableNormalA attr cfg enemy keys slot :=
    ExceptT.mk (fun h => (K.tableNormalA attr cfg enemy keys slot, h))
  tableReactionA reaction attr cfg enemy keys slot :=
    ExceptT.mk (fun h => (K.tableReactionA reaction attr cfg enemy keys slot, h))
  mergeArray cols := ExceptT.mk (fun h => (K.mergeArray cols, h))

/-! ## Collaborators on the store for the worked examples -/

/-- The store of the worked examples: loaded module, inputs `1`, `demoConfig`
and `5`, a counter in `other`. -/
def demoHeap : Heap Nat Nat Nat Nat Unit Nat Nat :=
  Heap.load 1 demoConfig 5 0

/-- The collaborators of `demoFailing` on the store: they read the counter in
`other` (the attribute adds it) and they write nothing. -/
def demoReading (failAt : Nat) :
    Collab (Exec String (Heap Nat Nat Nat Nat Unit Nat Nat))
      Nat Nat Nat Nat Unit Nat Nat (List Nat) DemoTable where
  getAttribute a c w b :=
    ExceptT.mk (fun h => (((demoFailing failAt).getAttribute a c w b).map (· + h.other), h))
  tableNormalA attr cfg enemy keys slot :=
    ExceptT.mk (fun h => ((demoFailing failAt).tableNormalA attr cfg enemy keys slot, h))
  tableReactionA reaction attr cfg enemy keys slot :=
    ExceptT.mk (fun h =>
      ((demoFailing failAt).tableReactionA reaction attr cfg enemy keys slot, h))
  mergeArray cols := ExceptT.mk (fun h => ((demoFailing failAt).mergeArray cols, h))

/-- The collaborators of `demoReading`, none failing, with a `tableNormalA` that
pushes one more entry onto the array it is handed. -/
def demoPushing :
    Collab (Exec String (Heap Nat Nat Nat Nat Unit Nat Nat))
      Nat Nat Nat Nat Unit Nat Nat (List Nat) DemoTable where
  getAttribute := (demoReading 5).getAttribute
  tableNormalA attr cfg enemy keys slot :=
    ExceptT.mk (fun h =>
      (.ok (demo.tableNormalA attr cfg enemy keys slot),
        { h with skillKeys := h.skillKeys ++
            [{ key := "dmg3", chs := "extra", skill := "e", element := "fire" }] }))
  tableReactionA := (demoReading 5).tableReactionA
  mergeArray := (demoReading 5).mergeArray

/-! ## Helper lemmas -/

/-- What one call computes, with the module state made explicit: the chain of
collaborator calls, with the module state handed back untouched. -/
theorem keli_e_run [Monad m] [LawfulMonad m] (K : Collab m A C W B X En Attr R T)
    (artifacts : A) (configObject : ConfigObject C W B X) (enemy : En) (env : ModuleEnv) :
    (keli_e K artifacts configObject enemy).run env =
      (do
        let attr ← K.getAttribute artifacts configObject.character
          configObject.weapon configObject.buffs
        let normal ← K.tableNormalA attr configObject enemy env.skillKeys "e"
        let normalMelt ←
          K.tableReactionA "melt" attr configObject enemy env.skillKeys "e"
        let normalVaporize ←
          K.tableReactionA "vaporize" attr configObject enemy env.skillKeys "e"
        let ret ← K.mergeArray
          [ ("chs", Column.labels (env.skillKeys.map (fun item => item.chs))),
            ("normal", Column.table normal),
            ("normalMelt", Column.table normalMelt),
            ("normalVaporize", Column.table normalVaporize) ]
        pure (ret, env)) := by
  simp [keli_e]

/-- With plain functions as collaborators, the call returns what `mergeArray`
makes of the four named columns. -/
theorem output_unfold (P : PureCollab A C W B X En Attr R T)
    (artifacts : A) (configObject : ConfigObject C W B X) (enemy : En) :
    output P artifacts configObject enemy =
      P.mergeArray
        [ ("chs", Column.labels (skillKeys.map (fun item => item.chs))),
          ("normal", Column.table (normalTable P artifacts configObject enemy)),
          ("normalMelt", Column.table (reactionTable P "melt" artifacts configObject enemy)),
          ("normalVaporize",
            Column.table (reactionTable P "vaporize" artifacts configObject enemy)) ] :=
  rfl

/-- The mis-wired variant hands the melt table to `mergeArray` twice. -/
theorem outputSwapped_unfold (P : PureCollab A C W B X En Attr R T)
    (artifacts : A) (configObject : ConfigObject C W B X) (enemy : En) :
    outputSwapped P artifacts configObject enemy =
      P.mergeArray
        [ ("chs", Column.labels (skillKeys.map (fun item => item.chs))),
          ("normal", Column.table (normalTable P artifacts configObject enemy)),
          ("normalMelt", Column.table (reactionTable P "melt" artifacts configObject enemy)),
          ("normalVaporize",
            Column.table (reactionTable P "melt" artifacts configObject enemy)) ] :=
  rfl

/-- A logging collaborator followed by the rest of the computation. -/
theorem record_bind_run (call : Call A C W B X En Attr R) (result : Except E α)
    (f : α → Traced E A C W B X En Attr R β) (log : List (Call A C W B X En Attr R)) :
    ((record call result >>= f).run).run log =
      match result with
      | .ok v => ((f v).run).run (log ++ [call])
      | .error err => (.error err, log ++ [call]) := by
  cases result <;> rfl

/-- Returning a value leaves the log alone. -/
theorem pure_run (x : α) (log : List (Call A C W B X En Attr R)) :
    ((pure x : Traced E A C W B X En Attr R α).run).run log = (.ok x, log) :=
  rfl

/-- The outcome and the log of a call with logging collaborators, case by case. -/
theorem tracedRun_unfold (K : Collab (Except E) A C W B X En Attr R T)
    (artifacts : A) (configObject : ConfigObject C W B X) (enemy : En) (env : ModuleEnv) :
    tracedRun K artifacts configObject enemy env =
      match K.getAttribute artifacts configObject.character configObject.weapon
          configObject.buffs with
      | .error err =>
        (.error err,
          [.getAttribute artifacts configObject.character configObject.weapon
            configObject.buffs])
      | .ok attr =>
        match K.tableNormalA attr configObject enemy env.skillKeys "e" with
        | .error err =>
          (.error err,
            [ .getAttribute artifacts configObject.character configObject.weapon
                configObject.buffs,
              .tableNormalA attr configObject enemy env.skillKeys "e" ])
        | .ok normal =>
          match K.tableReactionA "melt" attr configObject enemy env.skillKeys "e" with
          | .error err =>
            (.error err,
              [ .getAttribute artifacts configObject.character configObject.weapon
                  configObject.buffs,
                .tableNormalA attr configObject enemy env.skillKeys "e",
                .tableReactionA "melt" attr configObject enemy env.skillKeys "e" ])
          | .ok normalMelt =>
            match K.tableReactionA "vaporize" attr configObject enemy env.skillKeys "e" with
            | .error err =>
              (.error err,
                [ .getAttribute artifacts configObject.character configObject.weapon
                    configObject.buffs,
                  .tableNormalA attr configObject enemy env.skillKeys "e",
                  .tableReactionA "melt" attr configObject enemy env.skillKeys "e",
                  .tableReactionA "vaporize" attr configObject enemy env.skillKeys "e" ])
            | .ok normalVaporize =>
              match K.mergeArray
                  [ ("chs", Column.labels (env.skillKeys.map (fun item => item.chs))),
                    ("normal", Column.table normal),
                    ("normalMelt", Column.table normalMelt),
                    ("normalVaporize", Column.table normalVaporize) ] with
              | .error err =>
                (.error err,
                  [ .getAttribute artifacts configObject.character configObject.weapon
                      configObject.buffs,
                    .tableNormalA attr configObject enemy env.skillKeys "e",
                    .tableReactionA "melt" attr configObject enemy env.skillKeys "e",
                    .tableReactionA "vaporize" attr configObject enemy env.skillKeys "e",
                    .mergeArray
                      [ ("chs", Column.labels (env.skillKeys.map (fun item => item.chs))),
                        ("normal", Column.table normal),
                        ("normalMelt", Column.table normalMelt),
                        ("normalVaporize", Column.table normalVaporize) ] ])
              | .ok ret =>
                (.ok (ret, env),
                  [ .getAttribute artifacts configObject.character configObject.weapon
                      configObject.buffs,
                    .tableNormalA attr configObject enemy env.skillKeys "e",
                    .tableReactionA "melt" attr configObject enemy env.skillKeys "e",
                    .tableReactionA "vaporize" attr configObject enemy env.skillKeys "e",
                    .mergeArray
                      [ ("chs", Column.labels (env.skillKeys.map (fun item => item.chs))),
                        ("normal", Column.table normal),
                        ("normalMelt", Column.table normalMelt),
                        ("normalVaporize", Column.table normalVaporize) ] ]) := by
  unfold tracedRun
  rw [keli_e_run]
  simp only [Collab.traced, record_bind_run, pure_run]
  repeat' split
  all_goals simp_all

/-- The outcome and the store of a call with stateful collaborators. -/
theorem storeRun_unfold (K : Collab (StateM S) A C W B X En Attr R T)
    (artifacts : A) (configObject : ConfigObject C W B X) (enemy : En)
    (env : ModuleEnv) (s : S) :
    storeRun K artifacts configObject enemy env s =
      let r1 := K.getAttribute artifacts configObject.character configObject.weapon
        configObject.buffs s
      let r2 := K.tableNormalA r1.1 configObject enemy env.skillKeys "e" r1.2
      let r3 := K.tableReactionA "melt" r1.1 configObject enemy env.skillKeys "e" r2.2
      let r4 := K.tableReactionA "vaporize" r1.1 configObject enemy env.skillKeys "e" r3.2
      let r5 := K.mergeArray
        [ ("chs", Column.labels (env.skillKeys.map (fun item => item.chs))),
          ("normal", Column.table r2.1),
          ("normalMelt", Column.table r3.1),
          ("normalVaporize", Column.table r4.1) ] r4.2
      ((r5.1, env), r5.2) :=
  rfl

/-- A call that succeeds went through all five invocations, each of them
succeeding, and hands the module state back as it found it. -/
theorem tracedRun_ok_inv (K : Collab (Except E) A C W B X En Attr R T)
    (artifacts : A) (configObject : ConfigObject C W B X) (enemy : En) (env : ModuleEnv)
    (out : T) (env' : ModuleEnv)
    (hok : (tracedRun K artifacts configObject enemy env).1 = .ok (out, env')) :
    ∃ attr normal melt vaporize,
      K.getAttribute artifacts configObject.character configObject.weapon configObject.buffs
        = .ok attr ∧
      K.tableNormalA attr configObject enemy env.skillKeys "e" = .ok normal ∧
      K.tableReactionA "melt" attr configObject enemy env.skillKeys "e" = .ok melt ∧
      K.tableReactionA "vaporize" attr configObject enemy env.skillKeys "e" = .ok vaporize ∧
      K.mergeArray
        [ ("chs", Column.labels (env.skillKeys.map (fun item => item.chs))),
          ("normal", Column.table normal),
          ("normalMelt", Column.table melt),
          ("normalVaporize", Column.table vaporize) ] = .ok out ∧
      env' = env ∧
      (tracedRun K artifacts configObject enemy env).2 =
        [ .getAttribute artifacts configObject.character configObject.weapon
            configObject.buffs,
          .tableNormalA attr configObject enemy env.skillKeys "e",
          .tableReactionA "melt" attr configObject enemy env.skillKeys "e",
          .tableReactionA "vaporize" attr configObject enemy env.skillKeys "e",
          .mergeArray
            [ ("chs", Column.labels (env.skillKeys.map (fun item => item.chs))),
              ("normal", Column.table normal),
              ("normalMelt", Column.table melt),
              ("normalVaporize", Column.table vaporize) ] ] := by
  rw [tracedRun_unfold] at hok ⊢
  cases h1 : K.getAttribute artifacts configObject.character configObject.weapon
      configObject.buffs with
  | error err => simp [h1] at hok
  | ok attr =>
    cases h2 : K.tableNormalA attr configObject enemy env.skillKeys "e" with
    | error err => simp [h1, h2] at hok
    | ok normal =>
      cases h3 : K.tableReactionA "melt" attr configObject enemy env.skillKeys "e" with
      | error err => simp [h1, h2, h3] at hok
      | ok melt =>
        cases h4 : K.tableReactionA "vaporize" attr configObject enemy env.skillKeys "e" with
        | error err => simp [h1, h2, h3, h4] at hok
        | ok vaporize =>
          cases h5 : K.mergeArray
              [ ("chs", Column.labels (env.skillKeys.map (fun item => item.chs))),
                ("normal", Column.table normal),
                ("normalMelt", Column.table melt),
                ("normalVaporize", Column.table vaporize) ] with
          | error err => simp [h1, h2, h3, h4, h5] at hok
          | ok ret =>
            simp only [h1, h2, h3, h4, h5, Except.ok.injEq, Prod.mk.injEq] at hok
            refine ⟨attr, normal, melt, vaporize, rfl, h2, h3, h4, ?_, hok.2.symm, ?_⟩
            · rw [h5, hok.1]
            · simp [h2, h3, h4, h5]

/-- Whatever the outcome of a call, each invocation in its log is one of the
five invocations that the exported function makes. -/
theorem tracedRun_log_mem (K : Collab (Except E) A C W B X En Attr R T)
    (artifacts : A) (configObject : ConfigObject C W B X) (enemy : En) (env : ModuleEnv)
    (call : Call A C W B X En Attr R)
    (hcall : call ∈ (tracedRun K artifacts configObject enemy env).2) :
    call = .getAttribute artifacts configObject.character configObject.weapon
        configObject.buffs ∨
      (∃ attr, call = .tableNormalA attr configObject enemy env.skillKeys "e") ∨
      (∃ attr, call = .tableReactionA "melt" attr configObject enemy env.skillKeys "e") ∨
      (∃ attr, call = .tableReactionA "vaporize" attr configObject enemy env.skillKeys "e") ∨
      (∃ normal melt vaporize, call = .mergeArray
        [ ("chs", Column.labels (env.skillKeys.map (fun item => item.chs))),
          ("normal", Column.table normal),
          ("normalMelt", Column.table melt),
          ("normalVaporize", Column.table vaporize) ]) := by
  rw [tracedRun_unfold] at hcall
  repeat' split at hcall
  all_goals
    simp only [List.mem_cons, List.mem_singleton, List.not_mem_nil, or_false] at hcall
    repeat' rcases hcall with hcall | hcall
  all_goals simp

/-- Plain functions never fail: the call with them, logged, returns `output`
after the five invocations. -/
theorem tracedRun_pure (P : PureCollab A C W B X En Attr R T)
    (artifacts : A) (configObject : ConfigObject C W B X) (enemy : En) :
    tracedRun (P.toCollab (m := Except Empty)) artifacts configObject enemy ModuleEnv.load =
      (.ok (output P artifacts configObject enemy, ModuleEnv.load),
        [ .getAttribute artifacts configObject.character configObject.weapon
            configObject.buffs,
          .tableNormalA (resolved P artifacts configObject) configObject enemy skillKeys "e",
          .tableReactionA "melt" (resolved P artifacts configObject) configObject enemy
            skillKeys "e",
          .tableReactionA "vaporize" (resolved P artifacts configObject) configObject enemy
            skillKeys "e",
          .mergeArray
            [ ("chs", Column.labels (skillKeys.map (fun item => item.chs))),
              ("normal", Column.table (normalTable P artifacts configObject enemy)),
              ("normalMelt",
                Column.table (reactionTable P "melt" artifacts configObject enemy)),
              ("normalVaporize",
                Column.table (reactionTable P "vaporize" artifacts configObject enemy)) ] ]) :=
  rfl

/-- No column is shorter than the zip. -/
theorem rowCount_le_of_mem (cols : List (String × List V)) (col : String × List V)
    (hcol : col ∈ cols) : rowCount cols ≤ col.2.length := by
  induction cols with
  | nil => cases hcol
  | cons head tail ih =>
    cases tail with
    | nil =>
      have hEq : col = head := by simpa using hcol
      subst hEq
      exact le_of_eq rfl
    | cons next rest =>
      have hstep : rowCount (head :: next :: rest) =
          min head.2.length (rowCount (next :: rest)) := rfl
      rw [hstep]
      rcases List.mem_cons.1 hcol with hEq | hmem
      · subst hEq
        exact Nat.min_le_left _ _
      · exact le_trans (Nat.min_le_right _ _) (ih hmem)

/-- A row taken below the length of every column has one cell per column, in
the order of the columns. -/
theorem rowAt_names (cols : List (String × List V)) (i : Nat)
    (hi : ∀ col ∈ cols, i < col.2.length) :
    (rowAt cols i).map Prod.fst = cols.map Prod.fst := by
  induction cols with
  | nil => rfl
  | cons head tail ih =>
    have hhead : i < head.2.length := hi head (List.mem_cons_self _ _)
    have htail : ∀ col ∈ tail, i < col.2.length :=
      fun col hcol => hi col (List.mem_cons_of_mem _ hcol)
    have ih' := ih htail
    unfold rowAt at ih' ⊢
    simp [List.filterMap_cons, List.getElem?_eq_getElem hhead, ih']

/-- Every row of a zip carries the names of all the columns, in their order. -/
theorem mergeArray_row_names (cols : List (String × List V)) (row : List (String × V))
    (hrow : row ∈ mergeArray cols) : row.map Prod.fst = cols.map Prod.fst := by
  unfold mergeArray at hrow
  rcases List.mem_map.1 hrow with ⟨i, hi, rfl⟩
  have hlt : i < rowCount cols := List.mem_range.1 hi
  exact rowAt_names cols i
    (fun col hcol => lt_of_lt_of_le hlt (rowCount_le_of_mem cols col hcol))

/-- A zip has as many rows as its shortest column has entries. -/
theorem mergeArray_length (cols : List (String × List V)) :
    (mergeArray cols).length = rowCount cols := by
  simp [mergeArray]

/-! ## Helper lemmas on the store -/

/-- Running a computation and then the rest, on the store. -/
theorem runOn_bind {H : Type} (x : Exec E H α) (f : α → Exec E H β) (h : H) :
    runOn (x >>= f) h =
      match runOn x h with
      | (.ok a, h') => runOn (f a) h'
      | (.error err, h') => (.error err, h') := by
  unfold runOn
  simp only [ExceptT.run_bind, StateT.run_bind]
  show (match (x.run.run h) with | (a, s) => _) = _
  rcases hx : x.run.run h with ⟨r, h'⟩
  cases r <;> rfl

/-- Reading the store gives the store and leaves it alone. -/
theorem runOn_get {H : Type} (h : H) : runOn (get : Exec E H H) h = (.ok h, h) :=
  rfl

/-- Returning a value leaves the store alone. -/
theorem runOn_pure {H : Type} (x : α) (h : H) :
    runOn (pure x : Exec E H α) h = (.ok x, h) :=
  rfl

/-- The outcome and the store of a call by reference, invocation by
invocation: each collaborator is handed what the store holds when it is
invoked, and runs on the store that the previous one left. -/
theorem heapRun_unfold (K : Collab (Exec E (Heap A C W B X En G)) A C W B X En Attr R T)
    (h : Heap A C W B X En G) :
    heapRun K h =
      match runOn (K.getAttribute h.artifacts h.configObject.character h.configObject.weapon
          h.configObject.buffs) h with
      | (.error err, h1) => (.error err, h1)
      | (.ok attr, h1) =>
        match runOn (K.tableNormalA attr h1.configObject h1.enemy h1.skillKeys "e") h1 with
        | (.error err, h2) => (.error err, h2)
        | (.ok normal, h2) =>
          match runOn
              (K.tableReactionA "melt" attr h2.configObject h2.enemy h2.skillKeys "e") h2 with
          | (.error err, h3) => (.error err, h3)
          | (.ok normalMelt, h3) =>
            match runOn
                (K.tableReactionA "vaporize" attr h3.configObject h3.enemy h3.skillKeys "e")
                h3 with
            | (.error err, h4) => (.error err, h4)
            | (.ok normalVaporize, h4) =>
              runOn (K.mergeArray
                [ ("chs", Column.labels (h1.skillKeys.map (fun item => item.chs))),
                  ("normal", Column.table normal),
                  ("normalMelt", Column.table normalMelt),
                  ("normalVaporize", Column.table normalVaporize) ]) h4 := by
  unfold heapRun ByRef.keli_e
  simp only [runOn_bind, runOn_get, runOn_pure]
  rcases runOn (K.getAttribute h.artifacts h.configObject.character h.configObject.weapon
      h.configObject.buffs) h with ⟨r1, h1⟩
  cases r1 with
  | error err => rfl
  | ok attr =>
    simp only []
    rcases runOn (K.tableNormalA attr h1.configObject h1.enemy h1.skillKeys "e") h1 with
      ⟨r2, h2⟩
    cases r2 with
    | error err => rfl
    | ok normal =>
      simp only []
      rcases runOn (K.tableReactionA "melt" attr h2.configObject h2.enemy h2.skillKeys "e")
        h2 with ⟨r3, h3⟩
      cases r3 with
      | error err => rfl
      | ok normalMelt =>
        simp only []
        rcases runOn
          (K.tableReactionA "vaporize" attr h3.configObject h3.enemy h3.skillKeys "e")
          h3 with ⟨r4, h4⟩
        cases r4 with
        | error err => rfl
        | ok normalVaporize =>
          simp only []
          split <;> rename_i heq <;> rw [heq]

/-- A logging collaborator runs as the collaborator does, on the store without
the log, and appends its invocation to the log. -/
theorem runOn_logged (call : Call A C W B X En Attr R)
    (action : Exec E (Heap A C W B X En G) α)
    (h : Heap A C W B X En (G × List (Event A C W B X En Attr R))) :
    runOn (logged call action) h =
      ((runOn action (h.setOther h.other.1)).1,
        (runOn action (h.setOther h.other.1)).2.setOther
          ((runOn action (h.setOther h.other.1)).2.other,
            h.other.2 ++ [{ call := call, binding := h.skillKeys }])) :=
  rfl

/-- Replacing `other` twice is replacing it once. -/
theorem Heap.setOther_setOther (h : Heap A C W B X En G) (x : α) (y : β) :
    (h.setOther x).setOther y = h.setOther y :=
  rfl

/-- Replacing `other` by itself changes nothing. -/
theorem Heap.setOther_other (h : Heap A C W B X En G) : h.setOther h.other = h :=
  rfl

/-- Replacing `other` leaves the array `skillKeys` alone. -/
theorem Heap.setOther_skillKeys (h : Heap A C W B X En G) (x : α) :
    (h.setOther x).skillKeys = h.skillKeys :=
  rfl

/-- Replacing `other` leaves `artifacts` alone. -/
theorem Heap.setOther_artifacts (h : Heap A C W B X En G) (x : α) :
    (h.setOther x).artifacts = h.artifacts :=
  rfl

/-- Replacing `other` leaves `configObject` alone. -/
theorem Heap.setOther_configObject (h : Heap A C W B X En G) (x : α) :
    (h.setOther x).configObject = h.configObject :=
  rfl

/-- Replacing `other` leaves `enemy` alone. -/
theorem Heap.setOther_enemy (h : Heap A C W B X En G) (x : α) :
    (h.setOther x).enemy = h.enemy :=
  rfl

/-- Replacing `other` sets `other`. -/
theorem Heap.other_setOther (h : Heap A C W B X En G) (x : α) :
    (h.setOther x).other = x :=
  rfl

/-- The outcome, the store and the log of a call by reference with logging
collaborators, invocation by invocation. -/
theorem heapTrace_unfold (K : Collab (Exec E (Heap A C W B X En G)) A C W B X En Attr R T)
    (h : Heap A C W B X En G) :
    heapTrace K h =
      match runOn (K.getAttribute h.artifacts h.configObject.character h.configObject.weapon
          h.configObject.buffs) h with
      | (.error err, h1) =>
        (.error err, h1.setOther (h1.other,
          [ { call := .getAttribute h.artifacts h.configObject.character
                h.configObject.weapon h.configObject.buffs,
              binding := h.skillKeys } ]))
      | (.ok attr, h1) =>
        match runOn (K.tableNormalA attr h1.configObject h1.enemy h1.skillKeys "e") h1 with
        | (.error err, h2) =>
          (.error err, h2.setOther (h2.other,
            [ { call := .getAttribute h.artifacts h.configObject.character
                  h.configObject.weapon h.configObject.buffs,
                binding := h.skillKeys },
              { call := .tableNormalA attr h1.configObject h1.enemy h1.skillKeys "e",
                binding := h1.skillKeys } ]))
        | (.ok normal, h2) =>
          match runOn
              (K.tableReactionA "melt" attr h2.configObject h2.enemy h2.skillKeys "e") h2 with
          | (.error err, h3) =>
            (.error err, h3.setOther (h3.other,
              [ { call := .getAttribute h.artifacts h.configObject.character
                    h.configObject.weapon h.configObject.buffs,
                  binding := h.skillKeys },
                { call := .tableNormalA attr h1.configObject h1.enemy h1.skillKeys "e",
                  binding := h1.skillKeys },
                { call := .tableReactionA "melt" attr h2.configObject h2.enemy
                    h2.skillKeys "e",
                  binding := h2.skillKeys } ]))
          | (.ok normalMelt, h3) =>
            match runOn
                (K.tableReactionA "vaporize" attr h3.configObject h3.enemy h3.skillKeys "e")
                h3 with
            | (.error err, h4) =>
              (.error err, h4.setOther (h4.other,
                [ { call := .getAttribute h.artifacts h.configObject.character
                      h.configObject.weapon h.configObject.buffs,
                    binding := h.skillKeys },
                  { call := .tableNormalA attr h1.configObject h1.enemy h1.skillKeys "e",
                    binding := h1.skillKeys },
                  { call := .tableReactionA "melt" attr h2.configObject h2.enemy
                      h2.skillKeys "e",
                    binding := h2.skillKeys },
                  { call := .tableReactionA "vaporize" attr h3.configObject h3.enemy
                      h3.skillKeys "e",
                    binding := h3.skillKeys } ]))
            | (.ok normalVaporize, h4) =>
              ((runOn (K.mergeArray
                  [ ("chs", Column.labels (h1.skillKeys.map (fun item => item.chs))),
                    ("normal", Column.table normal),
                    ("normalMelt", Column.table normalMelt),
                    ("normalVaporize", Column.table normalVaporize) ]) h4).1,
                (runOn (K.mergeArray
                  [ ("chs", Column.labels (h1.skillKeys.map (fun item => item.chs))),
                    ("normal", Column.table normal),
                    ("normalMelt", Column.table normalMelt),
                    ("normalVaporize", Column.table normalVaporize) ]) h4).2.setOther
                  ((runOn (K.mergeArray
                    [ ("chs", Column.labels (h1.skillKeys.map (fun item => item.chs))),
                      ("normal", Column.table normal),
                      ("normalMelt", Column.table normalMelt),
                      ("normalVaporize", Column.table normalVaporize) ]) h4).2.other,
                  [ { call := .getAttribute h.artifacts h.configObject.character
                        h.configObject.weapon h.configObject.buffs,
                      binding := h.skillKeys },
                    { call := .tableNormalA attr h1.configObject h1.enemy h1.skillKeys "e",
                      binding := h1.skillKeys },
                    { call := .tableReactionA "melt" attr h2.configObject h2.enemy
                        h2.skillKeys "e",
                      binding := h2.skillKeys },
                    { call := .tableReactionA "vaporize" attr h3.configObject h3.enemy
                        h3.skillKeys "e",
                      binding := h3.skillKeys },
                    { call := .mergeArray
                        [ ("chs", Column.labels (h1.skillKeys.map (fun item => item.chs))),
                          ("normal", Column.table normal),
                          ("normalMelt", Column.table normalMelt),
                          ("normalVaporize", Column.table normalVaporize) ],
                      binding := h4.skillKeys } ])) := by
  unfold heapTrace
  rw [heapRun_unfold]
  simp only [Collab.logged, runOn_logged, Heap.setOther_skillKeys, Heap.setOther_artifacts,
    Heap.setOther_configObject, Heap.setOther_enemy, Heap.other_setOther,
    Heap.setOther_setOther, Heap.setOther_other, List.nil_append]
  rcases runOn (K.getAttribute h.artifacts h.configObject.character h.configObject.weapon
      h.configObject.buffs) h with ⟨r1, h1⟩
  cases r1 with
  | error err => rfl
  | ok attr =>
    simp only [Heap.setOther_skillKeys, Heap.setOther_artifacts,
      Heap.setOther_configObject, Heap.setOther_enemy, Heap.other_setOther,
      Heap.setOther_setOther, Heap.setOther_other]
    rcases runOn (K.tableNormalA attr h1.configObject h1.enemy h1.skillKeys "e") h1 with
      ⟨r2, h2⟩
    cases r2 with
    | error err => rfl
    | ok normal =>
      simp only [Heap.setOther_skillKeys, Heap.setOther_artifacts,
        Heap.setOther_configObject, Heap.setOther_enemy, Heap.other_setOther,
        Heap.setOther_setOther, Heap.setOther_other]
      rcases runOn (K.tableReactionA "melt" attr h2.configObject h2.enemy h2.skillKeys "e")
        h2 with ⟨r3, h3⟩
      cases r3 with
      | error err => rfl
      | ok normalMelt =>
        simp only [Heap.setOther_skillKeys, Heap.setOther_artifacts,
          Heap.setOther_configObject, Heap.setOther_enemy, Heap.other_setOther,
          Heap.setOther_setOther, Heap.setOther_other]
        rcases runOn
          (K.tableReactionA "vaporize" attr h3.configObject h3.enemy h3.skillKeys "e")
          h3 with ⟨r4, h4⟩
        cases r4 with
        | error err => rfl
        | ok normalVaporize =>
          simp only [Heap.setOther_skillKeys, Heap.setOther_artifacts,
            Heap.setOther_configObject, Heap.setOther_enemy, Heap.other_setOther,
            Heap.setOther_setOther, Heap.setOther_other]
          rfl

/-- Logging changes neither the outcome of a call nor what it does to the
store. -/
theorem heapTrace_erase (K : Collab (Exec E (Heap A C W B X En G)) A C W B X En Attr R T)
    (h : Heap A C W B X En G) :
    heapRun K h =
      ((heapTrace K h).1, (heapTrace K h).2.setOther (heapTrace K h).2.other.1) := by
  rw [heapTrace_unfold, heapRun_unfold]
  rcases runOn (K.getAttribute h.artifacts h.configObject.character h.configObject.weapon
      h.configObject.buffs) h with ⟨r1, h1⟩
  cases r1 with
  | error err => rfl
  | ok attr =>
    dsimp only
    rcases runOn (K.tableNormalA attr h1.configObject h1.enemy h1.skillKeys "e") h1 with
      ⟨r2, h2⟩
    cases r2 with
    | error err => rfl
    | ok normal =>
      dsimp only
      rcases runOn (K.tableReactionA "melt" attr h2.configObject h2.enemy h2.skillKeys "e")
        h2 with ⟨r3, h3⟩
      cases r3 with
      | error err => rfl
      | ok normalMelt =>
        dsimp only
        rcases runOn
          (K.tableReactionA "vaporize" attr h3.configObject h3.enemy h3.skillKeys "e")
          h3 with ⟨r4, h4⟩
        cases r4 with
        | error err => rfl
        | ok normalVaporize => rfl

/-- Each table invocation of a call is handed the array `skillKeys` as it is
at the moment of the invocation, whatever the collaborators do. -/
theorem heapTrace_keys_live (K : Collab (Exec E (Heap A C W B X En G)) A C W B X En Attr R T)
    (h : Heap A C W B X En G) (ev : Event A C W B X En Attr R)
    (hev : ev ∈ (heapTrace K h).2.other.2) (keys : List SkillKey)
    (hkeys : ev.keys = some keys) : keys = ev.binding := by
  revert hev
  rw [heapTrace_unfold]
  rcases runOn (K.getAttribute h.artifacts h.configObject.character h.configObject.weapon
      h.configObject.buffs) h with ⟨r1, h1⟩
  cases r1 with
  | error err =>
    intro hev
    simp only [Heap.other_setOther, List.mem_singleton] at hev
    subst hev
    simp [Event.keys, Call.keys] at hkeys
  | ok attr =>
    dsimp only
    rcases runOn (K.tableNormalA attr h1.configObject h1.enemy h1.skillKeys "e") h1 with
      ⟨r2, h2⟩
    cases r2 with
    | error err =>
      intro hev
      simp only [Heap.other_setOther, List.mem_cons, List.mem_singleton, List.not_mem_nil,
        or_false] at hev
      rcases hev with hev | hev <;> subst hev <;> simp [Event.keys, Call.keys] at hkeys
      exact hkeys.symm
    | ok normal =>
      dsimp only
      rcases runOn (K.tableReactionA "melt" attr h2.configObject h2.enemy h2.skillKeys "e")
        h2 with ⟨r3, h3⟩
      cases r3 with
      | error err =>
        intro hev
        simp only [Heap.other_setOther, List.mem_cons, List.mem_singleton,
          List.not_mem_nil, or_false] at hev
        rcases hev with hev | hev | hev <;> subst hev <;>
          simp [Event.keys, Call.keys] at hkeys <;> exact hkeys.symm
      | ok normalMelt =>
        dsimp only
        rcases runOn
          (K.tableReactionA "vaporize" attr h3.configObject h3.enemy h3.skillKeys "e")
          h3 with ⟨r4, h4⟩
        cases r4 with
        | error err =>
          intro hev
          simp only [Heap.other_setOther, List.mem_cons, List.mem_singleton,
            List.not_mem_nil, or_false] at hev
          rcases hev with hev | hev | hev | hev <;> subst hev <;>
            simp [Event.keys, Call.keys] at hkeys <;> exact hkeys.symm
        | ok normalVaporize =>
          intro hev
          simp only [Heap.other_setOther, List.mem_cons, List.mem_singleton,
            List.not_mem_nil, or_false] at hev
          rcases hev with hev | hev | hev | hev | hev <;> subst hev <;>
            simp [Event.keys, Call.keys] at hkeys <;> exact hkeys.symm

/-- With collaborators that do not write to the array `skillKeys`, the array is
the same at every invocation of a call and after the call, failed or not. -/
theorem heapTrace_binding_kept
    (K : Collab (Exec E (Heap A C W B X En G)) A C W B X En Attr R T)
    (hK : K.KeepsSkillKeys) (h : Heap A C W B X En G) :
    (heapTrace K h).2.skillKeys = h.skillKeys ∧
      ∀ ev ∈ (heapTrace K h).2.other.2, ev.binding = h.skillKeys := by
  rw [heapTrace_unfold]
  have e1 := hK.getAttribute h.artifacts h.configObject.character h.configObject.weapon
    h.configObject.buffs h
  rcases hr1 : runOn (K.getAttribute h.artifacts h.configObject.character
      h.configObject.weapon h.configObject.buffs) h with ⟨r1, h1⟩
  rw [hr1] at e1
  dsimp only at e1
  cases r1 with
  | error err =>
    refine ⟨e1, ?_⟩
    intro ev hev
    simp only [Heap.other_setOther, List.mem_singleton] at hev
    subst hev
    rfl
  | ok attr =>
    dsimp only
    have e2 := hK.tableNormalA attr h1.configObject h1.enemy h1.skillKeys "e" h1
    rcases hr2 : runOn (K.tableNormalA attr h1.configObject h1.enemy h1.skillKeys "e")
      h1 with ⟨r2, h2⟩
    rw [hr2] at e2
    dsimp only at e2
    cases r2 with
    | error err =>
      refine ⟨by rw [Heap.setOther_skillKeys, e2, e1], ?_⟩
      intro ev hev
      simp only [Heap.other_setOther, List.mem_cons, List.mem_singleton, List.not_mem_nil,
        or_false] at hev
      rcases hev with hev | hev <;> subst hev
      · rfl
      · exact e1
    | ok normal =>
      dsimp only
      have e3 := hK.tableReactionA "melt" attr h2.configObject h2.enemy h2.skillKeys "e" h2
      rcases hr3 : runOn
        (K.tableReactionA "melt" attr h2.configObject h2.enemy h2.skillKeys "e")
        h2 with ⟨r3, h3⟩
      rw [hr3] at e3
      dsimp only at e3
      cases r3 with
      | error err =>
        refine ⟨by rw [Heap.setOther_skillKeys, e3, e2, e1], ?_⟩
        intro ev hev
        simp only [Heap.other_setOther, List.mem_cons, List.mem_singleton,
          List.not_mem_nil, or_false] at hev
        rcases hev with hev | hev | hev <;> subst hev
        · rfl
        · exact e1
        · exact e2.trans e1
      | ok normalMelt =>
        dsimp only
        have e4 :=
          hK.tableReactionA "vaporize" attr h3.configObject h3.enemy h3.skillKeys "e" h3
        rcases hr4 : runOn
          (K.tableReactionA "vaporize" attr h3.configObject h3.enemy h3.skillKeys "e")
          h3 with ⟨r4, h4⟩
        rw [hr4] at e4
        dsimp only at e4
        cases r4 with
        | error err =>
          refine ⟨by rw [Heap.setOther_skillKeys, e4, e3, e2, e1], ?_⟩
          intro ev hev
          simp only [Heap.other_setOther, List.mem_cons, List.mem_singleton,
            List.not_mem_nil, or_false] at hev
          rcases hev with hev | hev | hev | hev <;> subst hev
          · rfl
          · exact e1
          · exact e2.trans e1
          · exact e3.trans (e2.trans e1)
        | ok normalVaporize =>
          dsimp only
          have e5 := hK.mergeArray
            [ ("chs", Column.labels (h1.skillKeys.map (fun item => item.chs))),
              ("normal", Column.table normal),
              ("normalMelt", Column.table normalMelt),
              ("normalVaporize", Column.table normalVaporize) ] h4
          refine ⟨by rw [Heap.setOther_skillKeys, e5, e4, e3, e2, e1], ?_⟩
          intro ev hev
          simp only [Heap.other_setOther, List.mem_cons, List.mem_singleton,
            List.not_mem_nil, or_false] at hev
          rcases hev with hev | hev | hev | hev | hev <;> subst hev
          · rfl
          · exact e1
          · exact e2.trans e1
          · exact e3.trans (e2.trans e1)
          · exact e4.trans (e3.trans (e2.trans e1))

/-- With collaborators that do not write to the array `skillKeys`, a call that
succeeds has handed the array to exactly three table invocations. -/
theorem heapTrace_ok_keys (K : Collab (Exec E (Heap A C W B X En G)) A C W B X En Attr R T)
    (hK : K.KeepsSkillKeys) (h : Heap A C W B X En G) (out : T)
    (hok : (heapTrace K h).1 = .ok out) :
    (heapTrace K h).2.other.2.filterMap Event.keys =
      [h.skillKeys, h.skillKeys, h.skillKeys] := by
  revert hok
  rw [heapTrace_unfold]
  have e1 := hK.getAttribute h.artifacts h.configObject.character h.configObject.weapon
    h.configObject.buffs h
  rcases hr1 : runOn (K.getAttribute h.artifacts h.configObject.character
      h.configObject.weapon h.configObject.buffs) h with ⟨r1, h1⟩
  rw [hr1] at e1
  dsimp only at e1
  cases r1 with
  | error err => intro hok; cases hok
  | ok attr =>
    dsimp only
    have e2 := hK.tableNormalA attr h1.configObject h1.enemy h1.skillKeys "e" h1
    rcases hr2 : runOn (K.tableNormalA attr h1.configObject h1.enemy h1.skillKeys "e")
      h1 with ⟨r2, h2⟩
    rw [hr2] at e2
    dsimp only at e2
    cases r2 with
    | error err => intro hok; cases hok
    | ok normal =>
      dsimp only
      rcases hr3 : runOn
        (K.tableReactionA "melt" attr h2.configObject h2.enemy h2.skillKeys "e")
        h2 with ⟨r3, h3⟩
      have e3 := hK.tableReactionA "melt" attr h2.configObject h2.enemy h2.skillKeys "e" h2
      rw [hr3] at e3
      dsimp only at e3
      cases r3 with
      | error err => intro hok; cases hok
      | ok normalMelt =>
        dsimp only
        rcases hr4 : runOn
          (K.tableReactionA "vaporize" attr h3.configObject h3.enemy h3.skillKeys "e")
          h3 with ⟨r4, h4⟩
        cases r4 with
        | error err => intro hok; cases hok
        | ok normalVaporize =>
          dsimp only
          intro _
          simp only [Heap.other_setOther, List.filterMap_cons, List.filterMap_nil, Event.keys,
            Call.keys]
          rw [e3, e2, e1]

/-- With collaborators that do not write to the array `skillKeys`, the array is
the same after any number of calls in a row. -/
theorem heapRuns_skillKeys (K : Collab (Exec E (Heap A C W B X En G)) A C W B X En Attr R T)
    (hK : K.KeepsSkillKeys) (n : Nat) (h : Heap A C W B X En G) :
    (heapRuns K n h).skillKeys = h.skillKeys := by
  induction n generalizing h with
  | zero => rfl
  | succ n ih =>
    have hstep : heapRuns K (n + 1) h = heapRuns K n (heapRun K h).2 := rfl
    rw [hstep, ih, heapTrace_erase]
    exact (heapTrace_binding_kept K hK h).1

/-- The two embeddings agree: with collaborators that neither read nor write
the store, the call by reference returns what the call by value returns on the
inputs and the list that the store holds, and leaves the store alone. -/
theorem heapRun_onHeap (K : Collab (Except E) A C W B X En Attr R T)
    (h : Heap A C W B X En G) :
    heapRun (G := G) K.onHeap h =
      (((tracedRun K h.artifacts h.configObject h.enemy { skillKeys := h.skillKeys }).1).map
        Prod.fst, h) := by
  rw [heapRun_unfold, tracedRun_unfold]
  have hrun : ∀ {γ : Type} (r : Except E γ) (h' : Heap A C W B X En G),
      runOn (ExceptT.mk (fun s => (r, s)) : Exec E (Heap A C W B X En G) γ) h' = (r, h') :=
    fun _ _ => rfl
  simp only [Collab.onHeap, hrun]
  cases K.getAttribute h.artifacts h.configObject.character h.configObject.weapon
      h.configObject.buffs with
  | error err => rfl
  | ok attr =>
    dsimp only
    cases K.tableNormalA attr h.configObject h.enemy h.skillKeys "e" with
    | error err => rfl
    | ok normal =>
      dsimp only
      cases K.tableReactionA "melt" attr h.configObject h.enemy h.skillKeys "e" with
      | error err => rfl
      | ok normalMelt =>
        dsimp only
        cases K.tableReactionA "vaporize" attr h.configObject h.enemy h.skillKeys "e" with
        | error err => rfl
        | ok normalVaporize =>
          dsimp only
          cases K.mergeArray
              [ ("chs", Column.labels (h.skillKeys.map (fun item => item.chs))),
                ("normal", Column.table normal),
                ("normalMelt", Column.table normalMelt),
                ("normalVaporize", Column.table normalVaporize) ] with
          | error err => rfl
          | ok ret => rfl

/-! ## The claims -/

/-- C1: with the collaborators taken as arbitrary functions, the result of the
exported function is `mergeArray` applied to the four named columns `chs`,
`normal`, `normalMelt`, `normalVaporize`, in this order, where the three table
calls receive one and the same attribute value
`getAttribute(artifacts, configObject.character, configObject.weapon, configObject.buffs)`,
the configuration, the enemy, `skillKeys` and the slot tag `"e"`, and the labels
are the `chs` fields of `skillKeys` in order. -/
theorem output_eq_mergeArray_of_columns (P : PureCollab A C W B X En Attr R T)
    (artifacts : A) (configObject : ConfigObject C W B X) (enemy : En) :
    output P artifacts configObject enemy =
      P.mergeArray
        [ ("chs", Column.labels (skillKeys.map (fun item => item.chs))),
          ("normal", Column.table (P.tableNormalA
            (P.getAttribute artifacts configObject.character configObject.weapon
              configObject.buffs)
            configObject enemy skillKeys "e")),
          ("normalMelt", Column.table (P.tableReactionA "melt"
            (P.getAttribute artifacts configObject.character configObject.weapon
              configObject.buffs)
            configObject enemy skillKeys "e")),
          ("normalVaporize", Column.table (P.tableReactionA "vaporize"
            (P.getAttribute artifacts configObject.character configObject.weapon
              configObject.buffs)
            configObject enemy skillKeys "e")) ] :=
  rfl

/-- C2: when `mergeArray` zips its named columns by index and each table
function returns one result per skill entry, row `i` of the output (`i` is 0 or
1) holds the label of `skillKeys[i]` under `chs` (`"蹦蹦炸弹伤害"` in row 0,
`"诡雷伤害"` in row 1), the `i`-th normal result under `normal`, the `i`-th melt
result under `normalMelt` and the `i`-th vaporize result under `normalVaporize`. -/
theorem rows_aligned_with_skillKeys
    (P : PureCollab A C W B X En Attr (List V) (List (List (String × Cell V))))
    (hmerge : ∀ cols, P.mergeArray cols = zipColumns cols)
    (hnormal : ∀ attr cfg enemy keys slot,
      (P.tableNormalA attr cfg enemy keys slot).length = keys.length)
    (hreaction : ∀ reaction attr cfg enemy keys slot,
      (P.tableReactionA reaction attr cfg enemy keys slot).length = keys.length)
    (artifacts : A) (configObject : ConfigObject C W B X) (enemy : En)
    (i : Nat) (hi : i < 2) :
    ∃ item normal melt vaporize,
      skillKeys[i]? = some item ∧
      (normalTable P artifacts configObject enemy)[i]? = some normal ∧
      (reactionTable P "melt" artifacts configObject enemy)[i]? = some melt ∧
      (reactionTable P "vaporize" artifacts configObject enemy)[i]? = some vaporize ∧
      (output P artifacts configObject enemy)[i]? =
        some [ ("chs", Cell.label item.chs), ("normal", Cell.result normal),
               ("normalMelt", Cell.result melt), ("normalVaporize", Cell.result vaporize) ] ∧
      (i = 0 → item.chs = "蹦蹦炸弹伤害") ∧ (i = 1 → item.chs = "诡雷伤害") := by
  have h1 : (normalTable P artifacts configObject enemy).length = 2 := hnormal _ _ _ _ _
  have h2 : (reactionTable P "melt" artifacts configObject enemy).length = 2 :=
    hreaction _ _ _ _ _ _
  have h3 : (reactionTable P "vaporize" artifacts configObject enemy).length = 2 :=
    hreaction _ _ _ _ _ _
  obtain ⟨n0, n1, hn⟩ := List.length_eq_two.1 h1
  obtain ⟨m0, m1, hm⟩ := List.length_eq_two.1 h2
  obtain ⟨v0, v1, hv⟩ := List.length_eq_two.1 h3
  rw [output_unfold, hmerge, hn, hm, hv]
  have hcases : i = 0 ∨ i = 1 := by omega
  rcases hcases with rfl | rfl
  · exact ⟨_, n0, m0, v0, rfl, rfl, rfl, rfl, rfl, fun _ => rfl, fun h => absurd h (by decide)⟩
  · exact ⟨_, n1, m1, v1, rfl, rfl, rfl, rfl, rfl, fun h => absurd h (by decide), fun _ => rfl⟩

/-- C2, worked example: `demo` zips and returns one number per skill entry; its
second row. -/
theorem rows_aligned_with_skillKeys_witness :
    (1 < 2) ∧
    ∃ item normal melt vaporize,
      skillKeys[1]? = some item ∧
      (normalTable demo 1 demoConfig 5)[1]? = some normal ∧
      (reactionTable demo "melt" 1 demoConfig 5)[1]? = some melt ∧
      (reactionTable demo "vaporize" 1 demoConfig 5)[1]? = some vaporize ∧
      (output demo 1 demoConfig 5)[1]? =
        some [ ("chs", Cell.label item.chs), ("normal", Cell.result normal),
               ("normalMelt", Cell.result melt), ("normalVaporize", Cell.result vaporize) ] ∧
      (1 = 0 → item.chs = "蹦蹦炸弹伤害") ∧ (1 = 1 → item.chs = "诡雷伤害") :=
  ⟨by decide,
   rows_aligned_with_skillKeys demo (fun _ => rfl)
    (fun _ _ _ keys _ => List.length_map keys _)
    (fun _ _ _ _ keys _ => List.length_map keys _) 1 demoConfig 5 1 (by decide)⟩

/-- C3: with failing collaborators that log their invocations, a failure of
`getAttribute` with error `e` makes the exported function fail with exactly `e`
after that single invocation (no table function and no `mergeArray` is
invoked); and an error `e` raised by any collaborator that the call invokes is
the error of the call. -/
theorem collaborator_error_surfaces (K : Collab (Except E) A C W B X En Attr R T)
    (artifacts : A) (configObject : ConfigObject C W B X) (enemy : En) (env : ModuleEnv)
    (e : E) :
    (K.getAttribute artifacts configObject.character configObject.weapon configObject.buffs
        = .error e →
      tracedRun K artifacts configObject enemy env =
        (.error e,
          [Call.getAttribute artifacts configObject.character configObject.weapon
            configObject.buffs])) ∧
    (∀ call ∈ (tracedRun K artifacts configObject enemy env).2,
      K.errorOf call = some e →
        (tracedRun K artifacts configObject enemy env).1 = .error e) := by
  rw [tracedRun_unfold]
  refine ⟨fun h => by rw [h], ?_⟩
  repeat' split
  all_goals simp_all [Collab.errorOf]

/-- C3, worked examples: a failing `getAttribute` and a failing melt table. -/
theorem collaborator_error_surfaces_witness :
    tracedRun (demoFailing 0) 1 demoConfig 5 ModuleEnv.load =
        (.error "no character", [Call.getAttribute 1 2 3 4]) ∧
      (tracedRun (demoFailing 2) 1 demoConfig 5 ModuleEnv.load).1 = .error "melt" :=
  ⟨(collaborator_error_surfaces (demoFailing 0) 1 demoConfig 5 ModuleEnv.load
      "no character").1 rfl,
   (collaborator_error_surfaces (demoFailing 2) 1 demoConfig 5 ModuleEnv.load "melt").2
      (Call.tableReactionA "melt" 10 demoConfig 5 skillKeys "e") (by decide) rfl⟩

/-- C4: when `mergeArray` zips its named columns by index and each table
function, when it succeeds, returns one result per skill entry, the table of a
call that succeeds on the loaded module has as many rows as `skillKeys` has
entries, which is 2. -/
theorem row_count_eq_skillKeys_length
    (K : Collab (Except E) A C W B X En Attr (List V) (List (List (String × Cell V))))
    (hmerge : ∀ cols, K.mergeArray cols = .ok (zipColumns cols))
    (hnormal : ∀ attr cfg enemy keys slot result,
      K.tableNormalA attr cfg enemy keys slot = .ok result → result.length = keys.length)
    (hreaction : ∀ reaction attr cfg enemy keys slot result,
      K.tableReactionA reaction attr cfg enemy keys slot = .ok result →
        result.length = keys.length)
    (artifacts : A) (configObject : ConfigObject C W B X) (enemy : En)
    (out : List (List (String × Cell V))) (env' : ModuleEnv)
    (hok : (tracedRun K artifacts configObject enemy ModuleEnv.load).1 = .ok (out, env')) :
    out.length = skillKeys.length ∧ skillKeys.length = 2 := by
  obtain ⟨attr, normal, melt, vaporize, _, h1, h2, h3, h4, _, _⟩ :=
    tracedRun_ok_inv K artifacts configObject enemy ModuleEnv.load out env' hok
  rw [hmerge] at h4
  have l1 : normal.length = 2 := hnormal _ _ _ _ _ _ h1
  have l2 : melt.length = 2 := hreaction _ _ _ _ _ _ _ h2
  have l3 : vaporize.length = 2 := hreaction _ _ _ _ _ _ _ h3
  refine ⟨?_, rfl⟩
  rw [← Except.ok.inj h4]
  simp [zipColumns, mergeArray, rowCount, Column.cells, l1, l2, l3, skillKeys, ModuleEnv.load]

/-- C4, worked example: the call with the collaborators of `demo`, none of them
failing, succeeds with two rows. -/
theorem row_count_eq_skillKeys_length_witness :
    (tracedRun (demoFailing 5) 1 demoConfig 5 ModuleEnv.load).1 =
        .ok (output demo 1 demoConfig 5, ModuleEnv.load) ∧
      (output demo 1 demoConfig 5).length = skillKeys.length ∧ skillKeys.length = 2 :=
  ⟨rfl,
   row_count_eq_skillKeys_length (demoFailing 5) (fun _ => rfl)
    (fun _ _ _ keys _ result h => by
      have h' : Except.ok (keys.map _) = Except.ok result := h
      rw [← Except.ok.inj h']
      exact List.length_map keys _)
    (fun reaction _ _ _ keys _ result h => by
      have h' : Except.ok (keys.map _) = Except.ok result := h
      rw [← Except.ok.inj h']
      exact List.length_map keys _)
    1 demoConfig 5 (output demo 1 demoConfig 5) ModuleEnv.load rfl⟩

/-- C5: on every call that succeeds, `mergeArray` is invoked, and the column
names it is handed are `chs`, `normal`, `normalMelt`, `normalVaporize`: four
pairwise distinct names; when `mergeArray` zips, every row of the output carries
exactly these four names. -/
theorem column_names_exact
    (K : Collab (Except E) A C W B X En Attr (List V) (List (List (String × Cell V))))
    (artifacts : A) (configObject : ConfigObject C W B X) (enemy : En) (env : ModuleEnv)
    (out : List (List (String × Cell V))) (env' : ModuleEnv)
    (hok : (tracedRun K artifacts configObject enemy env).1 = .ok (out, env')) :
    (∃ call ∈ (tracedRun K artifacts configObject enemy env).2,
      call.columnNames = some ["chs", "normal", "normalMelt", "normalVaporize"]) ∧
    (∀ call ∈ (tracedRun K artifacts configObject enemy env).2, ∀ names,
      call.columnNames = some names →
        names = ["chs", "normal", "normalMelt", "normalVaporize"]) ∧
    ["chs", "normal", "normalMelt", "normalVaporize"].Nodup ∧
    ((∀ cols, K.mergeArray cols = .ok (zipColumns cols)) →
      ∀ row ∈ out, row.map Prod.fst = ["chs", "normal", "normalMelt", "normalVaporize"]) := by
  obtain ⟨attr, normal, melt, vaporize, _, _, _, _, h5, _, hlog⟩ :=
    tracedRun_ok_inv K artifacts configObject enemy env out env' hok
  refine ⟨?_, ?_, by decide, ?_⟩
  · rw [hlog]
    exact ⟨.mergeArray
      [ ("chs", Column.labels (env.skillKeys.map (fun item => item.chs))),
        ("normal", Column.table normal),
        ("normalMelt", Column.table melt),
        ("normalVaporize", Column.table vaporize) ], by simp, rfl⟩
  · intro call hcall names hnames
    rcases tracedRun_log_mem K artifacts configObject enemy env call hcall with
      h | ⟨_, h⟩ | ⟨_, h⟩ | ⟨_, h⟩ | ⟨_, _, _, h⟩ <;> subst h <;>
      simp [Call.columnNames] at hnames
    exact hnames.symm
  · intro hmerge row hrow
    rw [hmerge] at h5
    rw [← Except.ok.inj h5] at hrow
    exact mergeArray_row_names _ row hrow

/-- C5, worked example: the successful call with the collaborators of `demo`;
its first row carries the four names. -/
theorem column_names_exact_witness :
    (tracedRun (demoFailing 5) 1 demoConfig 5 ModuleEnv.load).1 =
        .ok (output demo 1 demoConfig 5, ModuleEnv.load) ∧
      ∀ row ∈ output demo 1 demoConfig 5,
        row.map Prod.fst = ["chs", "normal", "normalMelt", "normalVaporize"] :=
  ⟨rfl,
   (column_names_exact (demoFailing 5) 1 demoConfig 5 ModuleEnv.load
      (output demo 1 demoConfig 5) ModuleEnv.load rfl).2.2.2 (fun _ => rfl)⟩

/-- C6: the reaction types are wired to the right columns.  The column that
`mergeArray` receives under `normalMelt` is the result of `tableReactionA` with
reaction type `"melt"`, the one under `normalVaporize` is its result with
`"vaporize"`.  Hence, whenever the melt table differs from the vaporize table,
the output differs from that of the variant whose second reactive column is
computed with `"melt"`: for every `mergeArray` that keeps the contents of its
columns apart (an injective one), and for the `mergeArray` that zips, given one
result per skill entry. -/
theorem reaction_columns_wired (P : PureCollab A C W B X En Attr R T)
    (Z : PureCollab A C W B X En Attr (List V) (List (List (String × Cell V))))
    (artifacts : A) (configObject : ConfigObject C W B X) (enemy : En) :
    (∃ cols,
      (tracedRun (P.toCollab (m := Except Empty)) artifacts configObject enemy
        ModuleEnv.load).2.filterMap Call.columns = [cols] ∧
      output P artifacts configObject enemy = P.mergeArray cols ∧
      cols.lookup "normalMelt" =
        some (Column.table (P.tableReactionA "melt"
          (P.getAttribute artifacts configObject.character configObject.weapon
            configObject.buffs) configObject enemy skillKeys "e")) ∧
      cols.lookup "normalVaporize" =
        some (Column.table (P.tableReactionA "vaporize"
          (P.getAttribute artifacts configObject.character configObject.weapon
            configObject.buffs) configObject enemy skillKeys "e"))) ∧
    (Function.Injective P.mergeArray →
      reactionTable P "melt" artifacts configObject enemy ≠
        reactionTable P "vaporize" artifacts configObject enemy →
      output P artifacts configObject enemy ≠ outputSwapped P artifacts configObject enemy) ∧
    ((∀ cols, Z.mergeArray cols = zipColumns cols) →
      (∀ attr cfg enemy keys slot,
        (Z.tableNormalA attr cfg enemy keys slot).length = keys.length) →
      (∀ reaction attr cfg enemy keys slot,
        (Z.tableReactionA reaction attr cfg enemy keys slot).length = keys.length) →
      reactionTable Z "melt" artifacts configObject enemy ≠
        reactionTable Z "vaporize" artifacts configObject enemy →
      output Z artifacts configObject enemy ≠ outputSwapped Z artifacts configObject enemy) := by
  refine ⟨⟨_, ?_, output_unfold P artifacts configObject enemy, rfl, rfl⟩, ?_, ?_⟩
  · rw [tracedRun_pure]
    rfl
  · intro hkeep hdiff heq
    rw [output_unfold, outputSwapped_unfold] at heq
    have hcols := hkeep heq
    simp only [List.cons.injEq, Prod.mk.injEq, Column.table.injEq, true_and, and_true]
      at hcols
    exact hdiff hcols.symm
  · intro hmerge hnormal hreaction hdiff heq
    have h1 : (normalTable Z artifacts configObject enemy).length = 2 := hnormal _ _ _ _ _
    have h2 : (reactionTable Z "melt" artifacts configObject enemy).length = 2 :=
      hreaction _ _ _ _ _ _
    have h3 : (reactionTable Z "vaporize" artifacts configObject enemy).length = 2 :=
      hreaction _ _ _ _ _ _
    obtain ⟨n0, n1, hn⟩ := List.length_eq_two.1 h1
    obtain ⟨m0, m1, hm⟩ := List.length_eq_two.1 h2
    obtain ⟨v0, v1, hv⟩ := List.length_eq_two.1 h3
    rw [output_unfold, outputSwapped_unfold, hmerge, hmerge, hn, hm, hv] at heq
    apply hdiff
    rw [hm, hv]
    have hrows : ∀ i : Nat, (zipColumns
        [ ("chs", Column.labels (skillKeys.map (fun item => item.chs))),
          ("normal", Column.table [n0, n1]),
          ("normalMelt", Column.table [m0, m1]),
          ("normalVaporize", Column.table [v0, v1]) ])[i]? =
        (zipColumns
        [ ("chs", Column.labels (skillKeys.map (fun item => item.chs))),
          ("normal", Column.table [n0, n1]),
          ("normalMelt", Column.table [m0, m1]),
          ("normalVaporize", Column.table [m0, m1]) ])[i]? := by
      intro i
      rw [heq]
    have r0 := hrows 0
    have r1 := hrows 1
    simp [zipColumns, mergeArray, rowCount, rowAt, Column.cells, skillKeys] at r0 r1
    rw [r0, r1]

/-- C6, worked examples: the melt and vaporize tables of `demo` differ, and so
do the two outputs, with a `mergeArray` that hands its columns back and with
the `mergeArray` that zips. -/
theorem reaction_columns_wired_witness :
    reactionTable demo "melt" 1 demoConfig 5 ≠ reactionTable demo "vaporize" 1 demoConfig 5 ∧
      output demoKeeping 1 demoConfig 5 ≠ outputSwapped demoKeeping 1 demoConfig 5 ∧
      output demo 1 demoConfig 5 ≠ outputSwapped demo 1 demoConfig 5 :=
  ⟨by decide,
   (reaction_columns_wired demoKeeping demo 1 demoConfig 5).2.1 (fun _ _ h => h) (by decide),
   (reaction_columns_wired demoKeeping demo 1 demoConfig 5).2.2 (fun _ => rfl)
    (fun _ _ _ keys _ => List.length_map keys _)
    (fun _ _ _ _ keys _ => List.length_map keys _) (by decide)⟩

/-- C7: with collaborators that answer as functions of their arguments,
whatever a store holds and whatever they write to it, a call on the loaded
module returns the table that the plain functions give from the three arguments
and `skillKeys`: the same table from any two stores, and the same table again
when the call is repeated in the module state and store that the first call
left behind. -/
theorem calls_deterministic (K : Collab (StateM S) A C W B X En Attr R T)
    (P : PureCollab A C W B X En Attr R T) (hdet : K.Deterministic P)
    (artifacts : A) (configObject : ConfigObject C W B X) (enemy : En) (s₁ s₂ : S) :
    (storeRun K artifacts configObject enemy ModuleEnv.load s₁).1.1 =
        output P artifacts configObject enemy ∧
      (storeRun K artifacts configObject enemy ModuleEnv.load s₂).1.1 =
        (storeRun K artifacts configObject enemy ModuleEnv.load s₁).1.1 ∧
      (storeRun K artifacts configObject enemy
          (storeRun K artifacts configObject enemy ModuleEnv.load s₁).1.2
          (storeRun K artifacts configObject enemy ModuleEnv.load s₁).2).1.1 =
        (storeRun K artifacts configObject enemy ModuleEnv.load s₁).1.1 := by
  have hval : ∀ s, (storeRun K artifacts configObject enemy ModuleEnv.load s).1.1 =
      output P artifacts configObject enemy := by
    intro s
    rw [storeRun_unfold, output_unfold]
    simp only [hdet.getAttribute, hdet.tableNormalA, hdet.tableReactionA, hdet.mergeArray]
    rfl
  have henv : (storeRun K artifacts configObject enemy ModuleEnv.load s₁).1.2 =
      ModuleEnv.load := by
    rw [storeRun_unfold]
  refine ⟨hval s₁, ?_, ?_⟩
  · rw [hval s₁, hval s₂]
  · rw [henv, hval, hval]

/-- C7, worked example: the counting collaborators answer as `demo` does; two
calls in a row, the store counting five invocations in between. -/
theorem calls_deterministic_witness :
    (storeRun demoCounting 1 demoConfig 5 ModuleEnv.load 0).2 = 5 ∧
      (storeRun demoCounting 1 demoConfig 5 ModuleEnv.load 5).1.1 =
        (storeRun demoCounting 1 demoConfig 5 ModuleEnv.load 0).1.1 :=
  ⟨rfl,
   (calls_deterministic demoCounting demo
      ⟨fun _ _ _ _ _ => rfl, fun _ _ _ _ _ _ => rfl, fun _ _ _ _ _ _ _ => rfl,
        fun _ _ => rfl⟩
      1 demoConfig 5 0 5).2.1⟩

/-- C8: on a store that holds the caller's `artifacts`, `configObject` and
`enemy` and the array behind `skillKeys`, with collaborators that write nothing,
a call leaves the store as it found it, whether it returns or fails: after the
call the three inputs, and the `character`, `weapon` and `buffs` of the
configuration, have the values they had before, and nothing is kept that was
not there before (the module binding and `other` are unchanged too). -/
theorem inputs_not_mutated (K : Collab (Exec E (Heap A C W B X En G)) A C W B X En Attr R T)
    (hK : K.WritesNothing) (h : Heap A C W B X En G) :
    (heapRun K h).2 = h ∧
      (heapRun K h).2.artifacts = h.artifacts ∧
      (heapRun K h).2.configObject = h.configObject ∧
      (heapRun K h).2.configObject.character = h.configObject.character ∧
      (heapRun K h).2.configObject.weapon = h.configObject.weapon ∧
      (heapRun K h).2.configObject.buffs = h.configObject.buffs ∧
      (heapRun K h).2.enemy = h.enemy ∧
      (heapRun K h).2.skillKeys = h.skillKeys ∧
      (heapRun K h).2.other = h.other := by
  have hstore : (heapRun K h).2 = h := by
    rw [heapRun_unfold]
    have e1 := hK.getAttribute h.artifacts h.configObject.character h.configObject.weapon
      h.configObject.buffs h
    rcases hr1 : runOn (K.getAttribute h.artifacts h.configObject.character
        h.configObject.weapon h.configObject.buffs) h with ⟨r1, h1⟩
    rw [hr1] at e1
    dsimp only at e1
    subst e1
    cases r1 with
    | error err => rfl
    | ok attr =>
      dsimp only
      have e2 := hK.tableNormalA attr h1.configObject h1.enemy h1.skillKeys "e" h1
      rcases hr2 : runOn (K.tableNormalA attr h1.configObject h1.enemy h1.skillKeys "e")
        h1 with ⟨r2, h2⟩
      rw [hr2] at e2
      dsimp only at e2
      subst e2
      cases r2 with
      | error err => rfl
      | ok normal =>
        dsimp only
        have e3 :=
          hK.tableReactionA "melt" attr h2.configObject h2.enemy h2.skillKeys "e" h2
        rcases hr3 : runOn
          (K.tableReactionA "melt" attr h2.configObject h2.enemy h2.skillKeys "e")
          h2 with ⟨r3, h3⟩
        rw [hr3] at e3
        dsimp only at e3
        subst e3
        cases r3 with
        | error err => rfl
        | ok normalMelt =>
          dsimp only
          have e4 :=
            hK.tableReactionA "vaporize" attr h3.configObject h3.enemy h3.skillKeys "e" h3
          rcases hr4 : runOn
            (K.tableReactionA "vaporize" attr h3.configObject h3.enemy h3.skillKeys "e")
            h3 with ⟨r4, h4⟩
          rw [hr4] at e4
          dsimp only at e4
          subst e4
          cases r4 with
          | error err => rfl
          | ok normalVaporize =>
            dsimp only
            exact hK.mergeArray _ _
  rw [hstore]
  exact ⟨rfl, rfl, rfl, rfl, rfl, rfl, rfl, rfl, rfl⟩

/-- C8, worked examples: collaborators that read the store and write nothing;
the store is the same after a call that returns and after a call that fails. -/
theorem inputs_not_mutated_witness :
    (heapRun (demoReading 5) demoHeap).1 = .ok (output demo 1 demoConfig 5) ∧
      (heapRun (demoReading 5) demoHeap).2 = demoHeap ∧
      (heapRun (demoReading 2) demoHeap).1 = .error "melt" ∧
      (heapRun (demoReading 2) demoHeap).2 = demoHeap :=
  ⟨rfl,
   (inputs_not_mutated (demoReading 5)
    ⟨fun _ _ _ _ _ => rfl, fun _ _ _ _ _ _ => rfl, fun _ _ _ _ _ _ _ => rfl, fun _ _ => rfl⟩
    demoHeap).1,
   rfl,
   (inputs_not_mutated (demoReading 2)
    ⟨fun _ _ _ _ _ => rfl, fun _ _ _ _ _ _ => rfl, fun _ _ _ _ _ _ _ => rfl, fun _ _ => rfl⟩
    demoHeap).1⟩

/-- C9, as stated, fails: the exported function hands the array behind
`skillKeys` itself to the table functions.  With a `tableNormalA` that pushes
an entry onto the array it is handed, the call on the loaded module returns,
the melt and the vaporize invocation receive a list that is not the two-record
list, and the array is not the two-record list after the call. -/
theorem skillKeys_altered_by_pushing_table :
    demoHeap.skillKeys = skillKeys ∧
      (heapTrace demoPushing demoHeap).1 = .ok (output demo 1 demoConfig 5) ∧
      (heapTrace demoPushing demoHeap).2.other.2.filterMap Event.keys =
        [ skillKeys,
          skillKeys ++ [{ key := "dmg3", chs := "extra", skill := "e", element := "fire" }],
          skillKeys ++ [{ key := "dmg3", chs := "extra", skill := "e", element := "fire" }] ] ∧
      (heapTrace demoPushing demoHeap).2.other.2.filterMap Event.keys ≠
        [skillKeys, skillKeys, skillKeys] ∧
      (heapTrace demoPushing demoHeap).2.skillKeys ≠ skillKeys :=
  ⟨rfl, rfl, rfl, by decide, by decide⟩

/-- C9, amended: `skillKeys` is initialised to the two-record list `dmg1`,
`dmg2` with labels `"蹦蹦炸弹伤害"` and `"诡雷伤害"`, slot `"e"` and element `"fire"`;
a record is its four properties `key`, `chs`, `skill`, `element` and nothing
more.  Each table invocation is handed the array as it is at that moment,
whatever the collaborators do.  Provided the collaborators do not write to the
array, the exported function leaves it as it is: it holds the same list at
every invocation and after the call, whether the call returns or fails, and so
after any number of calls; every table invocation of every call receives that
list, and a call that returns has handed it to exactly three of them. -/
theorem skillKeys_static (K : Collab (Exec E (Heap A C W B X En G)) A C W B X En Attr R T)
    (hK : K.KeepsSkillKeys) (h : Heap A C W B X En G) :
    skillKeys =
        [ { key := "dmg1", chs := "蹦蹦炸弹伤害", skill := "e", element := "fire" },
          { key := "dmg2", chs := "诡雷伤害", skill := "e", element := "fire" } ] ∧
      (∀ item ∈ skillKeys,
        item.properties.map Prod.fst = ["key", "chs", "skill", "element"]) ∧
      Function.Injective SkillKey.properties ∧
      (Heap.load h.artifacts h.configObject h.enemy h.other).skillKeys = skillKeys ∧
      (heapRun K h).2.skillKeys = h.skillKeys ∧
      (∀ n, (heapRuns K n h).skillKeys = h.skillKeys) ∧
      (∀ n, ∀ ev ∈ (heapTrace K (heapRuns K n h)).2.other.2,
        ev.binding = h.skillKeys ∧ ∀ keys, ev.keys = some keys → keys = h.skillKeys) ∧
      (∀ n out, (heapTrace K (heapRuns K n h)).1 = .ok out →
        (heapTrace K (heapRuns K n h)).2.other.2.filterMap Event.keys =
          [h.skillKeys, h.skillKeys, h.skillKeys]) := by
  refine ⟨rfl, fun _ _ => rfl, ?_, rfl, ?_, fun n => heapRuns_skillKeys K hK n h, ?_, ?_⟩
  · intro x y hxy
    cases x
    cases y
    simp only [SkillKey.properties, List.cons.injEq, Prod.mk.injEq, true_and, and_true]
      at hxy
    obtain ⟨h1, h2, h3, h4⟩ := hxy
    subst h1 h2 h3 h4
    rfl
  · exact heapRuns_skillKeys K hK 1 h
  · intro n ev hev
    have hbind : ev.binding = h.skillKeys := by
      rw [(heapTrace_binding_kept K hK (heapRuns K n h)).2 ev hev]
      exact heapRuns_skillKeys K hK n h
    refine ⟨hbind, fun keys hkeys => ?_⟩
    rw [heapTrace_keys_live K (heapRuns K n h) ev hev keys hkeys]
    exact hbind
  · intro n out hok
    rw [heapTrace_ok_keys K hK (heapRuns K n h) out hok, heapRuns_skillKeys K hK n h]

/-- C9, worked example: the collaborators of `demoReading` do not write to the
array; the second call on the loaded module hands `skillKeys` to its three
table invocations. -/
theorem skillKeys_static_witness :
    (heapTrace (demoReading 5) (heapRuns (demoReading 5) 1 demoHeap)).1 =
        .ok (output demo 1 demoConfig 5) ∧
      (heapTrace (demoReading 5)
        (heapRuns (demoReading 5) 1 demoHeap)).2.other.2.filterMap Event.keys =
        [skillKeys, skillKeys, skillKeys] :=
  ⟨rfl,
   (skillKeys_static (demoReading 5)
    ⟨fun _ _ _ _ _ => rfl, fun _ _ _ _ _ _ => rfl, fun _ _ _ _ _ _ _ => rfl, fun _ _ => rfl⟩
    demoHeap).2.2.2.2.2.2.2 1 (output demo 1 demoConfig 5) rfl⟩

/-- C10: the static table agrees with the hard-coded arguments of the calls.
Every record of `skillKeys` has `skill` equal to `"e"` and `element` equal to
`"fire"`, the `key` fields are pairwise distinct, and the slot tag that a table
function receives, in any call, is `"e"`, the `skill` of every record; a call
that succeeds passes it to exactly three table invocations. -/
theorem skillKeys_consistent_with_slot (K : Collab (Except E) A C W B X En Attr R T)
    (artifacts : A) (configObject : ConfigObject C W B X) (enemy : En) (env : ModuleEnv) :
    (∀ item ∈ skillKeys, item.skill = "e" ∧ item.element = "fire") ∧
      (skillKeys.map (fun item => item.key)).Nodup ∧
      (∀ call ∈ (tracedRun K artifacts configObject enemy env).2, ∀ slot,
        call.slot = some slot → slot = "e" ∧ ∀ item ∈ skillKeys, item.skill = slot) ∧
      (∀ out env', (tracedRun K artifacts configObject enemy env).1 = .ok (out, env') →
        (tracedRun K artifacts configObject enemy env).2.filterMap Call.slot =
          ["e", "e", "e"]) := by
  have hstatic : ∀ item ∈ skillKeys, item.skill = "e" ∧ item.element = "fire" := by decide
  refine ⟨hstatic, by decide, ?_, ?_⟩
  · intro call hcall slot hslot
    have hslot' : slot = "e" := by
      rcases tracedRun_log_mem K artifacts configObject enemy env call hcall with
        h | ⟨_, h⟩ | ⟨_, h⟩ | ⟨_, h⟩ | ⟨_, _, _, h⟩ <;> subst h <;>
        simp [Call.slot] at hslot <;> exact hslot.symm
    subst hslot'
    exact ⟨rfl, fun item hitem => (hstatic item hitem).1⟩
  · intro out env' hok
    obtain ⟨attr, normal, melt, vaporize, _, _, _, _, _, _, hlog⟩ :=
      tracedRun_ok_inv K artifacts configObject enemy env out env' hok
    rw [hlog]
    rfl

/-- C10, worked example: the slot tags of a successful call. -/
theorem skillKeys_consistent_with_slot_witness :
    (tracedRun (demoFailing 5) 1 demoConfig 5 ModuleEnv.load).2.filterMap Call.slot =
      ["e", "e", "e"] :=
  (skillKeys_consistent_with_slot (demoFailing 5) 1 demoConfig 5 ModuleEnv.load).2.2.2
    (output demo 1 demoConfig 5) ModuleEnv.load rfl

end KeliE
